import Mathlib

/-!
Verification of the Impact Classification & Remediation Pipeline of the
artifact-sync repository (`vscode-extension/python`).

The Python sources are shallowly embedded:

* string primitives (`str.startswith`, `in`, `str.strip`, `str.splitlines`,
  `str.split('/')`) are modelled as executable functions over `List Char`
  (`String.data`), matching CPython semantics on `'\n'`-separated ASCII text;
* `os.path` functions are modelled with their POSIX (`posixpath`) semantics;
* the filesystem is a parameter (`FSModel`): `pathExists` abstracts
  `os.path.exists`, and `rglobRel` abstracts `Path(root).rglob(basename)`
  composed with `os.path.relpath`/`normalize_path` (it returns root-relative
  normalized match paths); `difflib.SequenceMatcher(...).ratio()` is an
  abstract `score` parameter — no claim depends on either;
* LLM responses are oracle parameters (arbitrary values of the response type).
-/

namespace ArtifactSync

/-! ## Python string primitives over `List Char` -/

/-- `s.startswith(p)` (CPython): `p.data` is a prefix of `s.data`. -/
def pyStartsWith (s p : String) : Bool :=
  p.data.isPrefixOf s.data

/-- Substring test over char lists: some suffix of `s` has `sub` as a prefix. -/
def containsSub (sub : List Char) : List Char → Bool
  | [] => sub.isEmpty
  | c :: t => sub.isPrefixOf (c :: t) || containsSub sub t

/-- Python's `sub in s` substring containment. -/
def pyContains (sub s : String) : Bool :=
  containsSub sub.data s.data

/-- Strip leading and trailing whitespace from a char list (Python `str.strip()`,
restricted to ASCII whitespace). -/
def stripList (l : List Char) : List Char :=
  ((l.dropWhile Char.isWhitespace).reverse.dropWhile Char.isWhitespace).reverse

/-- Python `str.strip()` (ASCII whitespace). -/
def pyStrip (s : String) : String :=
  String.mk (stripList s.data)

/-- Split a char list on a separator character; like Python `str.split(sep)`,
it keeps empty parts and never returns an empty list of parts. -/
def splitCh (sep : Char) : List Char → List (List Char)
  | [] => [[]]
  | c :: rest =>
    if c = sep then [] :: splitCh sep rest
    else
      match splitCh sep rest with
      | [] => [[c]]
      | h :: t => (c :: h) :: t

/-- Python `str.splitlines()` for `'\n'`-separated text: split on `'\n'` and
drop the trailing empty part produced by a trailing newline. -/
def pySplitlines (s : String) : List String :=
  let parts := splitCh '\n' s.data
  let parts := if parts.getLast? = some [] then parts.dropLast else parts
  parts.map String.mk

/-- Python `str.splitlines(keepends=True)` for `'\n'`-separated text. -/
def splitNlKeep : List Char → List (List Char)
  | [] => []
  | c :: rest =>
    if c = '\n' then ['\n'] :: splitNlKeep rest
    else
      match splitNlKeep rest with
      | [] => [[c]]
      | h :: t => (c :: h) :: t

/-- `original_content.splitlines(keepends=True)`. -/
def pySplitlinesKeepends (s : String) : List String :=
  (splitNlKeep s.data).map String.mk

/-- `"\n".join(lines)`. -/
def intercalateNl : List String → String
  | [] => ""
  | [x] => x
  | x :: y :: xs => x ++ "\n" ++ intercalateNl (y :: xs)

/-- `"/".join(segments)`. -/
def joinSlash : List String → String
  | [] => ""
  | [x] => x
  | x :: y :: xs => x ++ "/" ++ joinSlash (y :: xs)

/-- Python `s.rstrip('\n')`: drop all trailing newline characters. -/
def rstripNl (s : String) : String :=
  String.mk (s.data.reverse.dropWhile (fun c => c == '\n')).reverse

/-! ## `os.path` (POSIX) model and `utils/helpers.py` path functions -/

/-- One step of `posixpath.normpath`'s component loop. -/
def normpathStep (isAbs : Bool) (acc : List String) (comp : String) : List String :=
  if comp = "" || comp = "." then acc
  else if comp ≠ ".." || (!isAbs && acc = []) || (acc ≠ [] && acc.getLast? = some "..") then
    acc ++ [comp]
  else if acc ≠ [] then acc.dropLast
  else acc

/-- `posixpath.normpath` (`os.path.normpath` on POSIX). -/
def normpath (p : String) : String :=
  if p = "" then "."
  else
    let isAbs := pyStartsWith p "/"
    let dbl := pyStartsWith p "//" && !pyStartsWith p "///"
    let comps := (splitCh '/' p.data).map String.mk
    let newComps := comps.foldl (normpathStep isAbs) []
    let res := (if isAbs then (if dbl then "//" else "/") else "") ++ joinSlash newComps
    if res = "" then "." else res

/-- `s.endswith(p)`: `p.data` is a suffix of `s.data`. -/
def pyEndsWith (s p : String) : Bool :=
  p.data.isSuffixOf s.data

/-- `posixpath.join` for two arguments. -/
def pyJoin (a b : String) : String :=
  if pyStartsWith b "/" then b
  else if a = "" || pyEndsWith a "/" then a ++ b
  else a ++ "/" ++ b

/-- `normalize_path` (`utils/helpers.py`): `os.path.normpath(path)`. -/
def normalize_path (path : String) : String :=
  normpath path

/-- `safe_join_path` (`utils/helpers.py`) with one path argument:
`normalize_path(os.path.join(base, p))`. -/
def safe_join_path (base p : String) : String :=
  normalize_path (pyJoin base p)

/-- Python `s.lstrip("./")`: drop all leading `'.'` and `'/'` characters. -/
def lstripDotSlash (s : String) : String :=
  String.mk (s.data.dropWhile (fun c => c == '.' || c == '/'))

/-- `posixpath.basename`: the part after the last `'/'`. -/
def posixBasename (p : String) : String :=
  String.mk (((splitCh '/' p.data).getLast?).getD [])

/-- Collapse immediately repeated list elements (the `dedup_segments` loop of
`resolve_repo_path`). -/
def collapseAdjacentDups (segs : List String) : List String :=
  segs.foldl (fun acc seg =>
    if acc ≠ [] && acc.getLast? = some seg then acc else acc ++ [seg]) []

/-- The filesystem seen by the path resolver. `pathExists` abstracts
`os.path.exists`; `rglobRel` abstracts `Path(root_norm).rglob(basename)`
composed with `os.path.relpath(match, root_norm)` and `normalize_path`
(it returns the root-relative normalized paths of all matches, `[]` also
standing for an `OSError`). -/
structure FSModel where
  pathExists : String → Bool
  rglobRel : String → List String

/-- A filesystem holding exactly the given (normalized, root-joined) entries;
existence is invariant under lexical path normalization (no symlinks). -/
def mkFS (files : List String) : FSModel :=
  ⟨fun p => files.contains (normpath p), fun _ => []⟩

/-- `resolve_repo_path` (`utils/helpers.py`). `score` abstracts
`difflib.SequenceMatcher(None, normalized, rel).ratio()`; the best-match fold
keeps the first match on ties exactly as the source's strict `>` does. -/
def resolve_repo_path (fs : FSModel) (score : String → String → ℚ)
    (root_path candidate_path : String) : String :=
  let root_norm := normalize_path root_path
  let normalized := normalize_path candidate_path
  let full_path := safe_join_path root_norm normalized
  if fs.pathExists full_path then normalized
  else
    let trimmed := lstripDotSlash normalized
    if fs.pathExists (safe_join_path root_norm trimmed) then trimmed
    else
      let segments := ((splitCh '/' normalized.data).map String.mk).filter
        (fun seg => seg ≠ "" && seg ≠ ".")
      let afterDedup : Option String :=
        if segments ≠ [] then
          let dedupSegments := collapseAdjacentDups segments
          if dedupSegments ≠ segments then
            let dedupPath := joinSlash dedupSegments
            if fs.pathExists (safe_join_path root_norm dedupPath) then some dedupPath
            else
              let trimmedDedup := lstripDotSlash dedupPath
              if fs.pathExists (safe_join_path root_norm trimmedDedup) then some trimmedDedup
              else none
          else none
        else none
      match afterDedup with
      | some r => r
      | none =>
        let basename := posixBasename normalized
        if basename = "" then normalized
        else
          let matchList := fs.rglobRel basename
          if matchList = [] then normalized
          else
            (matchList.foldl (fun (st : String × ℚ) rel =>
              if st.2 < score normalized rel then (rel, score normalized rel) else st)
              (normalized, -1)).1

/-- The dedup/normalization loop at the end of `run_analysis` (`main.py`):
`seen_paths` is the set of already inserted normalized paths, `acc` the
`normalized_final` list built so far. -/
def dedupGo (f : String → String) : List String → List String → List String → List String
  | [], _, acc => acc
  | p :: rest, seen, acc =>
    let n := f p
    if n ∈ seen then dedupGo f rest seen acc
    else dedupGo f rest (n :: seen) (acc ++ [n])

/-- `main.py` lines 405-418: each accumulated path is resolved via
`resolve_repo_path` and normalized via `normalize_path` before insertion,
and an already seen normalized path is skipped. -/
def dedupFinalSure (fs : FSModel) (score : String → String → ℚ)
    (root : String) (finalSure : List String) : List String :=
  dedupGo (fun p => normalize_path (resolve_repo_path fs score root p)) finalSure [] []

/-! ## Classification data model (`core/schemas.py`) -/

/-- The `needed_info` literal of `UnsureEntry`
(`Literal['file_overview', 'file_metadata', 'raw_content']`). -/
inductive NeededInfo where
  | file_overview
  | file_metadata
  | raw_content
deriving DecidableEq, Repr

/-- `UnsureEntry` (`core/schemas.py`). -/
structure UnsureEntry where
  path : String
  is_dir : Bool
  reason : String
  needed_info : NeededInfo
deriving DecidableEq, Repr

/-- The `confidence` literal of `RefinementDecision`. -/
inductive Confidence where
  | high
  | medium
  | low
deriving DecidableEq, Repr

/-- The string the source stores for a confidence level. -/
def Confidence.str : Confidence → String
  | .high => "high"
  | .medium => "medium"
  | .low => "low"

/-- `RefinementDecision` (`core/schemas.py`). -/
structure RefinementDecision where
  path : String
  related : Bool
  confidence : Confidence
  reasoning : String
deriving DecidableEq, Repr

/-- `RefineStats` (`core/schemas.py`). -/
structure RefineStats where
  path : String
  decision : String
  confidence : String
  reasoning : String
deriving DecidableEq, Repr

/-! ## `process_refinement_batch` (`analysis/refinement.py`)

The function launches one task per entry (a subfolder analysis for a
directory entry at max depth, a refinement otherwise), awaits the whole
batch, and merges the results sequentially.  The merge loop
(lines 162-213 of `refinement.py`) is deterministic given the gathered
task results, which we pass in as data: `none` stands for a task that
raised an exception. -/

/-- One launched task of a refinement batch together with its awaited
result (`none` = the task raised). -/
inductive BatchItem where
  | folderTask (path : String) (result : Option (List String × List UnsureEntry))
  | fileTask (entry : UnsureEntry) (result : Option RefinementDecision)
deriving DecidableEq, Repr

/-- Accumulator of the merge loop: `(final_sure, remaining_unsure,
folders_to_analyze, refinement_stats)`. -/
abbrev BatchAcc := List String × List UnsureEntry × List String × List RefineStats

/-- One iteration of the result-merge loop of `process_refinement_batch`. -/
def mergeBatchItem (acc : BatchAcc) (item : BatchItem) : BatchAcc :=
  let (final_sure, remaining_unsure, folders_to_analyze, refinement_stats) := acc
  match item with
  | .folderTask _ none => acc
  | .fileTask entry none =>
    (final_sure, remaining_unsure ++ [entry], folders_to_analyze, refinement_stats)
  | .folderTask _ (some (sure_files, unsure_entries)) =>
    (final_sure ++ sure_files, remaining_unsure ++ unsure_entries,
     folders_to_analyze, refinement_stats)
  | .fileTask entry (some decision) =>
    let stats : RefineStats :=
      ⟨entry.path, if decision.related then "related" else "not_related",
       decision.confidence.str, decision.reasoning⟩
    let refinement_stats := refinement_stats ++ [stats]
    if pyContains "Directory detected" decision.reasoning then
      (final_sure, remaining_unsure, folders_to_analyze ++ [entry.path], refinement_stats)
    else if decision.related then
      (final_sure ++ [entry.path], remaining_unsure, folders_to_analyze, refinement_stats)
    else
      (final_sure, remaining_unsure, folders_to_analyze, refinement_stats)

/-- The result-merge phase of `process_refinement_batch`
(`analysis/refinement.py` lines 162-213): a low-confidence verdict only
logs `[LOW_CONF] ... will be escalated or pruned` — the entry is *not*
appended to `remaining_unsure`. -/
def process_refinement_batch (items : List BatchItem) : BatchAcc :=
  items.foldl mergeBatchItem ([], [], [], [])

/-! ## The iterative refinement loop (`main.py` lines 319-403) -/

/-- The escalation policy applied to each entry of `remaining_unsure` after a
round (`main.py` lines 366-401), evaluated with the round number just
completed: `none` means the entry is pruned, `some e` that `e` is re-queued
for the next round. -/
def escalate_entry (atMaxDepth : String → Bool) (iteration max_iterations : Nat)
    (entry : UnsureEntry) : Option UnsureEntry :=
  if iteration < max_iterations then
    if entry.needed_info = .file_overview || entry.needed_info = .file_metadata then
      some { path := entry.path, is_dir := entry.is_dir,
             reason := "Escalated from overview: " ++ entry.reason,
             needed_info := .raw_content }
    else if entry.needed_info = .raw_content then none
    else if entry.is_dir then
      if !atMaxDepth entry.path then some entry else none
    else none
  else none

/-- Everything one refinement round feeds back into the orchestrator's
state: the sure/unsure contributions of `process_refinement_batch` and of
the follow-up analyses of the discovered folders.  An oracle of such
outcomes stands for the model verdicts and folder scans of a round. -/
structure RoundOutcome where
  batchSure : List String
  batchUnsure : List UnsureEntry
  folderSure : List String
  folderUnsure : List UnsureEntry

/-- The bounded refinement loop of `run_analysis` (`main.py` lines 319-403):
`while remaining_unsure and iteration < max_iterations`, each round merges
the batch results into the accumulator and then applies the escalation
policy to the new `remaining_unsure`.  Returns
`(final_sure, remaining_unsure, iteration)` at loop exit. -/
def refinement_loop (oracle : Nat → List UnsureEntry → RoundOutcome)
    (atMaxDepth : String → Bool) (max_iterations : Nat)
    (iteration : Nat) (remaining_unsure : List UnsureEntry) (final_sure : List String) :
    List String × List UnsureEntry × Nat :=
  if _h : remaining_unsure ≠ [] ∧ iteration < max_iterations then
    refinement_loop oracle atMaxDepth max_iterations (iteration + 1)
      (((oracle (iteration + 1) remaining_unsure).batchUnsure ++
          (oracle (iteration + 1) remaining_unsure).folderUnsure).filterMap
        (escalate_entry atMaxDepth (iteration + 1) max_iterations))
      (final_sure ++ (oracle (iteration + 1) remaining_unsure).batchSure ++
        (oracle (iteration + 1) remaining_unsure).folderSure)
  else
    (final_sure, remaining_unsure, iteration)
termination_by max_iterations - iteration
decreasing_by
  omega

/-! ## The patch engine (`analysis/fixes.py`) -/

/-- Numeric value of a list of decimal digits. -/
def digitsToNat (ds : List Char) : Nat :=
  ds.foldl (fun n c => n * 10 + (c.toNat - '0'.toNat)) 0

/-- Consume the optional `(?:,\d+)?` group: a comma followed by one or more
digits.  A comma not followed by a digit is left in place (the regex group
then fails to participate, exactly as in `re`). -/
def skipCommaDigits (cs : List Char) : List Char :=
  match cs with
  | ',' :: rest =>
    if rest.takeWhile Char.isDigit = [] then cs
    else rest.dropWhile Char.isDigit
  | _ => cs

/-- `re.match(r"@@ -(\d+)(?:,\d+)? \+(\d+)(?:,\d+)? @@", line)`, returning the
first capture group as a number (`re.match` anchors at the start of the line
only; trailing text after the final `@@` is allowed). -/
def parseHunkHeader (line : String) : Option Nat :=
  match line.data with
  | '@' :: '@' :: ' ' :: '-' :: rest =>
    let ds := rest.takeWhile Char.isDigit
    if ds = [] then none
    else
      let n := digitsToNat ds
      match skipCommaDigits (rest.dropWhile Char.isDigit) with
      | ' ' :: '+' :: r2 =>
        if r2.takeWhile Char.isDigit = [] then none
        else
          match skipCommaDigits (r2.dropWhile Char.isDigit) with
          | ' ' :: '@' :: '@' :: _ => some n
          | _ => none
      | _ => none
  | _ => none

/-- `patched_lines[-1] = patched_lines[-1].rstrip('\n')` guarded by
`if patched_lines:`. -/
def trimLastNl : List String → List String
  | [] => []
  | [x] => [rstripNl x]
  | x :: y :: xs => x :: trimLastNl (y :: xs)

/-- Handling of one `@@` line (`fixes.py` lines 310-319): on a regex match,
copy the original lines between the cursor and `max(start,1)-1` and move the
cursor there, failing if the hunk starts behind the cursor; a malformed `@@`
line leaves the state unchanged. -/
def hunkHeaderStep (origLines : List String) (origIndex : Nat) (acc : List String)
    (line : String) : Except String (Nat × List String) :=
  match parseHunkHeader line with
  | some startLine =>
    let hunkStart := max startLine 1 - 1
    if hunkStart < origIndex then .error "Diff hunk overlaps with previous content"
    else .ok (hunkStart, acc ++ (origLines.drop origIndex).take (hunkStart - origIndex))
  | none => .ok (origIndex, acc)

/-- Handling of one hunk-body line that does not start a new hunk
(`fixes.py` lines 321-349): header lines are skipped, the no-newline marker
trims the last emitted line, a context line copies one original line, a
removal advances the cursor, an addition emits its text, a blank or
whitespace-only line emits a bare newline, and anything else is a fatal
unrecognized-diff-line error. -/
def hunkBodyStep (origLines : List String) (origIndex : Nat) (acc : List String)
    (line : String) : Except String (Nat × List String) :=
  if pyStartsWith line "---" || pyStartsWith line "+++" then .ok (origIndex, acc)
  else if pyStartsWith line "\\ No newline at end of file" then
    .ok (origIndex, trimLastNl acc)
  else if pyStartsWith line " " then
    if origLines.length ≤ origIndex then .error "Context line exceeds original file length"
    else .ok (origIndex + 1, acc ++ [origLines.getD origIndex ""])
  else if pyStartsWith line "-" then .ok (origIndex + 1, acc)
  else if pyStartsWith line "+" then
    .ok (origIndex, acc ++ [String.mk (line.data.drop 1) ++ "\n"])
  else if pyStrip line = "" then .ok (origIndex, acc ++ ["\n"])
  else .error ("Unrecognized diff line: " ++ line)

/-- The line loop of `_apply_unified_diff`.  `inHunk` distinguishes the outer
loop (which skips everything except `@@` lines) from the inner hunk loop;
the inner loop's `break` on a new `@@` line followed by the outer loop's
re-dispatch of that same line is modelled by handling `@@` lines uniformly
first. -/
def processDiff (origLines : List String) :
    List String → Bool → Nat → List String → Except String (List String × Nat)
  | [], _, origIndex, acc => .ok (acc, origIndex)
  | line :: rest, inHunk, origIndex, acc =>
    if pyStartsWith line "@@" then
      match hunkHeaderStep origLines origIndex acc line with
      | .error e => .error e
      | .ok (i2, a2) => processDiff origLines rest true i2 a2
    else if inHunk then
      match hunkBodyStep origLines origIndex acc line with
      | .error e => .error e
      | .ok (i2, a2) => processDiff origLines rest true i2 a2
    else
      processDiff origLines rest false origIndex acc

/-- `_apply_unified_diff` (`fixes.py` lines 286-356). -/
def apply_unified_diff (original_content diff_text : String) : Except String String :=
  if diff_text = "" then .ok original_content
  else
    let diff_lines := pySplitlines diff_text
    if diff_lines.any (fun l => pyStartsWith l "@@") then
      let original_lines := pySplitlinesKeepends original_content
      match processDiff original_lines diff_lines false 0 [] with
      | .error e => .error e
      | .ok (acc, origIndex) => .ok (String.join (acc ++ original_lines.drop origIndex))
    else if pyContains "---" diff_text && pyContains "+++" diff_text then
      .ok original_content
    else
      .error "Diff output does not contain any hunks"

/-! ### `_extract_diff_content` (`fixes.py` lines 252-284) -/

/-- One iteration of the cleaning loop: drop a blank line right after an
already-kept *empty* line, drop `diff --git` / `index ` lines, keep the rest. -/
def cleanStep (cleaned : List String) (line : String) : List String :=
  let stripped := pyStrip line
  if stripped = "" && cleaned ≠ [] && cleaned.getLast? = some "" then cleaned
  else if pyStartsWith stripped "diff --git" || pyStartsWith stripped "index " then cleaned
  else cleaned ++ [line]

/-- The normalization pipeline of `_extract_diff_content`: strip, remove one
surrounding code fence, clean the lines, rejoin and strip again. -/
def normalizeDiffOutput (raw_output : String) : String :=
  let text := pyStrip raw_output
  if text = "" then ""
  else
    let text :=
      if pyStartsWith text "```" then
        let lines := pySplitlines text
        match (lines.drop 1).findIdx? (fun l => pyStartsWith (pyStrip l) "```") with
        | some k => intercalateNl ((lines.drop 1).take k)
        | none => intercalateNl (lines.drop 1)
      else text
    pyStrip (intercalateNl ((pySplitlines text).foldl cleanStep []))

/-- `_extract_diff_content` (`fixes.py` lines 252-284): empty output is
returned as an empty diff; otherwise the normalized output is rejected
exactly when it is nonempty and misses a `---` or a `+++` substring. -/
def extract_diff_content (raw_output : String) : Except String String :=
  if pyStrip raw_output = "" then .ok ""
  else
    let normalized := normalizeDiffOutput raw_output
    if normalized ≠ "" && (!pyContains "---" normalized || !pyContains "+++" normalized) then
      .error "Generated diff is missing required headers"
    else
      .ok normalized

/-! ### `generate_fix` (`fixes.py` lines 90-151) -/

/-- `DetailedImpactReport.analysis` (`core/schemas.py`). -/
structure ImpactAnalysis where
  impact : String
  impact_description : String
deriving DecidableEq, Repr

/-- `DetailedImpactReport.diagnosis` (`core/schemas.py`). -/
structure UpdateAssessment where
  needs_update : Bool
  update_rationale : String
deriving DecidableEq, Repr

/-- `DetailedImpactReport.recommendations` (`core/schemas.py`). -/
structure FixRecommendation where
  recommended_actions : List String
deriving DecidableEq, Repr

/-- `DetailedImpactReport` (`core/schemas.py`). -/
structure DetailedImpactReport where
  path : String
  related : Bool
  confidence : Confidence
  analysis : ImpactAnalysis
  diagnosis : UpdateAssessment
  recommendations : FixRecommendation
deriving DecidableEq, Repr

/-- The two `output_style` modes of `CodeFixGenerator`. -/
inductive OutputStyle where
  | full_file
  | diff
deriving DecidableEq, Repr

/-- An observable side effect of `generate_fix`, in program order.  The
function performs no write: its only interactions are resolving the path,
reading the target file, and one chat round-trip. -/
inductive FixEffect where
  | resolvedPath (requested resolved : String)
  | readFile (path : String)
  | sentPrompt
deriving DecidableEq, Repr

/-- `generate_fix` (`fixes.py` lines 90-151).  `resolve` abstracts
`resolve_repo_path(self.root_path, ·)`, `readFile` abstracts
`safe_join_path` plus `open(...).read()` (`.error` = an `OSError`), and
`modelOutput` is the chat response's `content`.  The prompt text and the
report-path rewrite feed only the model call, whose output is the oracle
`modelOutput`, so they do not appear in the result; the returned trace
records each external interaction in order. -/
def generate_fix (resolve : String → String) (readFile : String → Except String String)
    (modelOutput : String) (output_style : OutputStyle)
    (file_path : String) (impact_report : DetailedImpactReport) :
    Except String String × List FixEffect :=
  if !impact_report.diagnosis.needs_update then
    (.error ("File " ++ file_path ++ " does not need updates according to impact analysis"),
     [])
  else
    let resolved_path := resolve file_path
    let file_path := resolved_path
    match readFile file_path with
    | .error e =>
      (.error ("Could not read file " ++ file_path ++ ": " ++ e),
       [.resolvedPath file_path resolved_path, .readFile file_path])
    | .ok original_content =>
      let effects := [FixEffect.resolvedPath file_path resolved_path,
                      FixEffect.readFile file_path, FixEffect.sentPrompt]
      let raw_output := pyStrip modelOutput
      match output_style with
      | .diff =>
        match extract_diff_content raw_output with
        | .error e =>
          (.error ("Failed to generate fix for " ++ file_path ++ ": " ++ e), effects)
        | .ok diff_output =>
          match apply_unified_diff original_content diff_output with
          | .error e =>
            (.error ("Failed to generate fix for " ++ file_path ++ ": " ++ e), effects)
          | .ok fixed_content => (.ok fixed_content, effects)
      | .full_file =>
        if raw_output = "" || raw_output.length < 10 then
          (.error ("Failed to generate fix for " ++ file_path ++
            ": Generated fix appears to be empty or too short for " ++ file_path), effects)
        else (.ok raw_output, effects)

/-! ## Theorems -/

/-! ### Lemmas about the string primitives -/

theorem splitCh_ne_nil (sep : Char) (l : List Char) : splitCh sep l ≠ [] := by
  induction l with
  | nil => simp [splitCh]
  | cons c rest ih =>
    simp only [splitCh]
    split
    · simp
    · cases h : splitCh sep rest with
      | nil => simp
      | cons h t => simp

theorem splitCh_head_is_prefix (sep : Char) (l : List Char) :
    ∃ h t, splitCh sep l = h :: t ∧ h <+: l := by
  induction l with
  | nil => exact ⟨[], [], rfl, List.nil_prefix⟩
  | cons c rest ih =>
    obtain ⟨h, t, heq, hpre⟩ := ih
    by_cases hc : c = sep
    · refine ⟨[], splitCh sep rest, ?_, List.nil_prefix⟩
      simp [splitCh, hc]
    · refine ⟨c :: h, t, ?_, ?_⟩
      · simp [splitCh, hc, heq]
      · exact List.cons_prefix_cons.mpr ⟨rfl, hpre⟩

theorem mem_splitCh_infix (sep : Char) (l p : List Char) (hp : p ∈ splitCh sep l) :
    p <:+: l := by
  induction l generalizing p with
  | nil =>
    simp [splitCh] at hp
    simp [hp]
  | cons c rest ih =>
    by_cases hc : c = sep
    · simp only [splitCh, hc, if_pos rfl] at hp
      rcases List.mem_cons.mp hp with h | h
      · simp [h]
      · exact List.IsInfix.trans (ih p h) (List.infix_cons (List.infix_refl rest))
    · obtain ⟨h, t, heq, hpre⟩ := splitCh_head_is_prefix sep rest
      simp only [splitCh, hc, if_neg hc, heq] at hp
      rcases List.mem_cons.mp hp with h1 | h1
      · subst h1
        exact List.IsPrefix.isInfix (List.cons_prefix_cons.mpr ⟨rfl, hpre⟩)
      · have : p ∈ splitCh sep rest := by rw [heq]; exact List.mem_cons_of_mem _ h1
        exact List.IsInfix.trans (ih p this) (List.infix_cons (List.infix_refl rest))

theorem mem_pySplitlines_infix (s l : String) (h : l ∈ pySplitlines s) :
    l.data <:+: s.data := by
  unfold pySplitlines at h
  simp only [List.mem_map] at h
  obtain ⟨p, hp, hmk⟩ := h
  have hp' : p ∈ splitCh '\n' s.data := by
    by_cases hlast : (splitCh '\n' s.data).getLast? = some []
    · simp only [hlast, if_pos rfl] at hp
      exact List.dropLast_subset _ hp
    · simp only [hlast, if_neg hlast] at hp
      exact hp
  have : l.data = p := by rw [← hmk]
  rw [this]
  exact mem_splitCh_infix '\n' s.data p hp'

theorem containsSub_of_suffix_prefix (sub t s : List Char)
    (h1 : sub <+: t) (h2 : t <:+ s) : containsSub sub s = true := by
  induction s with
  | nil =>
    have : t = [] := List.eq_nil_of_suffix_nil h2
    subst this
    have : sub = [] := List.eq_nil_of_prefix_nil h1
    simp [this, containsSub]
  | cons c rest ih =>
    rcases List.suffix_cons_iff.mp h2 with h | h
    · subst h
      simp only [containsSub, Bool.or_eq_true]
      exact Or.inl (List.isPrefixOf_iff_prefix.mpr h1)
    · simp only [containsSub, Bool.or_eq_true]
      exact Or.inr (ih h)

theorem pyContains_of_infix (sub s : String) (h : sub.data <:+: s.data) :
    pyContains sub s = true := by
  obtain ⟨u, v, huv⟩ := h
  have h1 : sub.data <+: sub.data ++ v := List.prefix_append _ _
  have h2 : sub.data ++ v <:+ s.data := ⟨u, by rw [← huv, List.append_assoc]⟩
  exact containsSub_of_suffix_prefix _ _ _ h1 h2

theorem pyContains_of_line (s l p : String) (hmem : l ∈ pySplitlines s)
    (hpre : pyStartsWith l p = true) : pyContains p s = true := by
  have h1 : p.data <+: l.data := List.isPrefixOf_iff_prefix.mp hpre
  have h2 : l.data <:+: s.data := mem_pySplitlines_infix s l hmem
  exact pyContains_of_infix p s (List.IsInfix.trans (List.IsPrefix.isInfix h1) h2)

theorem pySplitlines_empty : pySplitlines "" = [] := rfl

/-- C5: applying a diff that contains `---` and `+++` header lines but no
`@@` hunk marker lines returns the original content byte-for-byte, with no
error (`_apply_unified_diff`, `fixes.py` lines 286-296). -/
theorem apply_diff_headers_only_identity (original diff : String)
    (hminus : ∃ l ∈ pySplitlines diff, pyStartsWith l "---" = true)
    (hplus : ∃ l ∈ pySplitlines diff, pyStartsWith l "+++" = true)
    (hnohunk : ∀ l ∈ pySplitlines diff, pyStartsWith l "@@" = false) :
    apply_unified_diff original diff = .ok original := by
  obtain ⟨lm, hlm, hlmpre⟩ := hminus
  obtain ⟨lp, hlp, hlppre⟩ := hplus
  have hne : diff ≠ "" := by
    intro h
    rw [h, pySplitlines_empty] at hlm
    exact List.not_mem_nil lm hlm
  have hc1 : pyContains "---" diff = true := pyContains_of_line diff lm "---" hlm hlmpre
  have hc2 : pyContains "+++" diff = true := pyContains_of_line diff lp "+++" hlp hlppre
  have hany : (pySplitlines diff).any (fun l => pyStartsWith l "@@") = false := by
    simp only [List.any_eq_false]
    intro l hl
    simp [hnohunk l hl]
  simp [apply_unified_diff, hne, hany, hc1, hc2]

/-- Witness for C5 at a concrete headers-only diff. -/
theorem apply_diff_headers_only_identity_witness :
    apply_unified_diff "hello\n" "--- a\n+++ b" = .ok "hello\n" :=
  apply_diff_headers_only_identity "hello\n" "--- a\n+++ b"
    (by decide) (by decide) (by decide)

/-- C6: on a hunk header line that the regex accepts with declared start
`start`, diff application raises the hunk-overlap error exactly when
`start-1` (clamped at 0) is strictly behind the cursor already consumed;
in particular monotonically increasing, non-overlapping hunks never raise
it (`fixes.py` lines 310-317). -/
theorem hunk_overlap_error_iff (origLines : List String) (origIndex : Nat)
    (acc : List String) (line : String) (startLine : Nat)
    (hp : parseHunkHeader line = some startLine) :
    hunkHeaderStep origLines origIndex acc line =
      .error "Diff hunk overlaps with previous content" ↔
    max startLine 1 - 1 < origIndex := by
  by_cases h : max startLine 1 - 1 < origIndex
  · simp [hunkHeaderStep, hp, h]
  · simp [hunkHeaderStep, hp, h]

/-- Witness for C6: a second hunk declared at line 1 while three original
lines are already consumed raises the overlap error. -/
theorem hunk_overlap_error_iff_witness :
    hunkHeaderStep ["x\n", "y\n", "z\n"] 3 [] "@@ -1,2 +1,2 @@" =
      .error "Diff hunk overlaps with previous content" :=
  (hunk_overlap_error_iff ["x\n", "y\n", "z\n"] 3 [] "@@ -1,2 +1,2 @@" 1
    (by decide)).mpr (by decide)

/-- C7 counterexample: an empty line inside a hunk body is none of the four
shapes the claim allows (context, removal, addition, no-newline marker),
yet `_apply_unified_diff` accepts it silently (emitting a bare newline)
instead of raising the unrecognized-diff-line error. -/
theorem apply_diff_accepts_blank_hunk_line :
    pyStartsWith "" " " = false ∧ pyStartsWith "" "-" = false ∧
    pyStartsWith "" "+" = false ∧
    pyStartsWith "" "\\ No newline at end of file" = false ∧
    "" ∈ pySplitlines "--- f\n+++ f\n@@ -1,1 +1,1 @@\n\n a" ∧
    apply_unified_diff "a\n" "--- f\n+++ f\n@@ -1,1 +1,1 @@\n\n a" = .ok "\na\n" := by
  refine ⟨rfl, rfl, rfl, rfl, by decide, rfl⟩

/-- C7 as amended: a hunk-body line that is not a context line, a removal, an
addition, a no-newline marker, a skipped `---`/`+++` header line, and is not
blank or whitespace-only, causes the fatal unrecognized-diff-line error
(`fixes.py` lines 321-349; a line starting with `@@` instead opens the next
hunk). -/
theorem hunk_body_unrecognized_line_error (origLines : List String)
    (origIndex : Nat) (acc : List String) (line : String)
    (h1 : pyStartsWith line "---" = false) (h2 : pyStartsWith line "+++" = false)
    (h3 : pyStartsWith line "\\ No newline at end of file" = false)
    (h4 : pyStartsWith line " " = false) (h5 : pyStartsWith line "-" = false)
    (h6 : pyStartsWith line "+" = false) (h7 : pyStrip line ≠ "") :
    hunkBodyStep origLines origIndex acc line =
      .error ("Unrecognized diff line: " ++ line) := by
  simp [hunkBodyStep, h1, h2, h3, h4, h5, h6, h7]

/-- Witness for the amended C7 at a concrete garbage line. -/
theorem hunk_body_unrecognized_line_error_witness :
    hunkBodyStep ["a\n"] 0 [] "garbage" = .error ("Unrecognized diff line: " ++ "garbage") :=
  hunk_body_unrecognized_line_error ["a\n"] 0 [] "garbage"
    rfl rfl rfl rfl rfl rfl (by decide)

/-- C8 counterexample: plain text without any hunk marker is rejected by
`_extract_diff_content`, although the claim says a normalized result
without hunk markers is not rejected. -/
theorem extract_diff_rejects_plain_text :
    pyContains "@@" (normalizeDiffOutput "hello") = false ∧
    extract_diff_content "hello" = .error "Generated diff is missing required headers" := by
  refine ⟨rfl, rfl⟩

/-- C8 as amended: `_extract_diff_content` rejects exactly when the
normalized result is nonempty and lacks a `---` substring or lacks a `+++`
substring — hunk markers play no role (`fixes.py` lines 270-284). -/
theorem extract_diff_reject_iff (raw : String) :
    extract_diff_content raw = .error "Generated diff is missing required headers" ↔
    (normalizeDiffOutput raw ≠ "" ∧
      (pyContains "---" (normalizeDiffOutput raw) = false ∨
       pyContains "+++" (normalizeDiffOutput raw) = false)) := by
  by_cases h0 : pyStrip raw = ""
  · have hn : normalizeDiffOutput raw = "" := by simp [normalizeDiffOutput, h0]
    simp [extract_diff_content, h0, hn]
  · by_cases h1 : normalizeDiffOutput raw = ""
    · simp [extract_diff_content, h0, h1]
    · by_cases h2 : pyContains "---" (normalizeDiffOutput raw) = false
      · simp [extract_diff_content, h0, h1, h2]
      · by_cases h3 : pyContains "+++" (normalizeDiffOutput raw) = false
        · simp [extract_diff_content, h0, h1, h2, h3]
        · simp [extract_diff_content, h0, h1, h2, h3]

/-- Applying an empty diff is the identity (`fixes.py` lines 288-289). -/
theorem apply_unified_diff_empty (original : String) :
    apply_unified_diff original "" = .ok original := by
  simp [apply_unified_diff]

/-- C9: when `diagnosis.needs_update` is false, `generate_fix` fails
immediately with the does-not-need-updates error, in both output modes,
before any external interaction: the effect trace is empty — no path
resolution, no file read, no model call (and `generate_fix` performs no
write at all), so the filesystem is untouched (`fixes.py` lines 100-101). -/
theorem generate_fix_no_update_error (resolve : String → String)
    (readFile : String → Except String String) (modelOutput : String)
    (style : OutputStyle) (file_path : String) (report : DetailedImpactReport)
    (h : report.diagnosis.needs_update = false) :
    generate_fix resolve readFile modelOutput style file_path report =
      (.error ("File " ++ file_path ++ " does not need updates according to impact analysis"),
       []) := by
  simp [generate_fix, h]

/-- Witness for C9 at a concrete report with `needs_update = false`. -/
theorem generate_fix_no_update_error_witness :
    generate_fix id (fun _ => .ok "content\n") "output" .diff "a.py"
      ⟨"a.py", true, .high, ⟨"direct", "d"⟩, ⟨false, "no update needed"⟩, ⟨[]⟩⟩ =
      (.error ("File " ++ "a.py" ++ " does not need updates according to impact analysis"),
       []) :=
  generate_fix_no_update_error id (fun _ => .ok "content\n") "output" .diff "a.py"
    ⟨"a.py", true, .high, ⟨"direct", "d"⟩, ⟨false, "no update needed"⟩, ⟨[]⟩⟩ rfl

/-- C10: in diff mode, when the model output normalizes to the empty diff
(empty text, or a fence holding only whitespace), `generate_fix` succeeds
and returns the original file content unchanged: the near-empty sanity
check is only applied in `full_file` mode, and applying the empty diff is
the identity (`fixes.py` lines 133-142, 252-268, 286-289). -/
theorem generate_fix_empty_diff_identity (resolve : String → String)
    (readFile : String → Except String String) (modelOutput : String)
    (file_path original : String) (report : DetailedImpactReport)
    (hupd : report.diagnosis.needs_update = true)
    (hread : readFile (resolve file_path) = .ok original)
    (hextract : extract_diff_content (pyStrip modelOutput) = .ok "") :
    (generate_fix resolve readFile modelOutput .diff file_path report).1 = .ok original := by
  simp [generate_fix, hupd, hread, hextract, apply_unified_diff_empty]

/-- Witness for C10: a fenced block holding only whitespace yields the
original content back. -/
theorem generate_fix_empty_diff_identity_witness :
    (generate_fix id (fun _ => .ok "line1\nline2\n") "```diff\n   \n```" .diff "a.py"
      ⟨"a.py", true, .high, ⟨"direct", "d"⟩, ⟨true, "update"⟩, ⟨[]⟩⟩).1 =
      .ok "line1\nline2\n" :=
  generate_fix_empty_diff_identity id (fun _ => .ok "line1\nline2\n")
    "```diff\n   \n```" "a.py" "line1\nline2\n"
    ⟨"a.py", true, .high, ⟨"direct", "d"⟩, ⟨true, "update"⟩, ⟨[]⟩⟩
    rfl rfl rfl

/-- Invariant of the dedup loop: when the accumulator has no duplicates and
every accumulated entry is recorded in `seen`, the loop output has no
duplicates and every output entry is an accumulated one or the image of an
input path. -/
theorem dedupGo_invariant (f : String → String) :
    ∀ (paths seen acc : List String), acc.Nodup → (∀ x ∈ acc, x ∈ seen) →
      (dedupGo f paths seen acc).Nodup ∧
      (∀ x ∈ dedupGo f paths seen acc, x ∈ acc ∨ x ∈ paths.map f) := by
  intro paths
  induction paths with
  | nil =>
    intro seen acc h1 h2
    exact ⟨h1, fun x hx => Or.inl hx⟩
  | cons p rest ih =>
    intro seen acc h1 h2
    simp only [dedupGo]
    by_cases hmem : f p ∈ seen
    · rw [if_pos hmem]
      obtain ⟨ha, hb⟩ := ih seen acc h1 h2
      refine ⟨ha, fun x hx => ?_⟩
      rcases hb x hx with h | h
      · exact Or.inl h
      · exact Or.inr (by simpa using Or.inr (List.mem_map.mp h))
    · rw [if_neg hmem]
      have hnotin : f p ∉ acc := fun hin => hmem (h2 _ hin)
      have hnodup : (acc ++ [f p]).Nodup := by
        rw [← List.concat_eq_append]
        exact List.Nodup.concat hnotin h1
      have hseen : ∀ x ∈ acc ++ [f p], x ∈ f p :: seen := by
        intro x hx
        rcases List.mem_append.mp hx with h | h
        · exact List.mem_cons_of_mem _ (h2 _ h)
        · simp at h
          simp [h]
      obtain ⟨ha, hb⟩ := ih (f p :: seen) (acc ++ [f p]) hnodup hseen
      refine ⟨ha, fun x hx => ?_⟩
      rcases hb x hx with h | h
      · rcases List.mem_append.mp h with h' | h'
        · exact Or.inl h'
        · simp at h'
          exact Or.inr (by simp [h'])
      · exact Or.inr (by simpa using Or.inr (List.mem_map.mp h))

/-- C3: the final confirmed-file list produced by the dedup/normalization
step of `run_analysis` contains no duplicate entries (it is keyed by
resolved, normalized path), and every entry is the resolver-then-normalizer
image of some accumulated path (`main.py` lines 405-418). -/
theorem dedup_final_sure_nodup (fs : FSModel) (score : String → String → ℚ)
    (root : String) (paths : List String) :
    (dedupFinalSure fs score root paths).Nodup ∧
    ∀ x ∈ dedupFinalSure fs score root paths,
      x ∈ paths.map (fun p => normalize_path (resolve_repo_path fs score root p)) := by
  obtain ⟨h1, h2⟩ :=
    dedupGo_invariant (fun p => normalize_path (resolve_repo_path fs score root p))
      paths [] [] List.nodup_nil (by simp)
  exact ⟨h1, fun x hx => (h2 x hx).resolve_left (List.not_mem_nil x)⟩

/-- C4 counterexample: the candidate `./x` exists verbatim on disk relative
to the root `repo` (the file `repo/x` exists, and `repo/./x` names it), yet
`resolve_repo_path` returns the normalized spelling `x`, not the input
candidate string. -/
theorem resolve_repo_path_changes_existing_candidate :
    (mkFS ["repo", "repo/x"]).pathExists (pyJoin "repo" "./x") = true ∧
    resolve_repo_path (mkFS ["repo", "repo/x"]) (fun _ _ => 0) "repo" "./x" = "x" ∧
    ("x" : String) ≠ "./x" := by
  refine ⟨by decide, by decide, by decide⟩

/-- C4 as amended: whenever the normalized candidate exists on disk relative
to the root, `resolve_repo_path` returns `normalize_path(candidate)`; in
particular the candidate is returned unchanged exactly when it is already in
normalized form (`utils/helpers.py` lines 19-31). -/
theorem resolve_repo_path_exists_normalized (fs : FSModel)
    (score : String → String → ℚ) (root cand : String)
    (h : fs.pathExists (safe_join_path (normalize_path root) (normalize_path cand)) = true) :
    resolve_repo_path fs score root cand = normalize_path cand ∧
    (normalize_path cand = cand → resolve_repo_path fs score root cand = cand) := by
  have h1 : resolve_repo_path fs score root cand = normalize_path cand := by
    simp [resolve_repo_path, h]
  exact ⟨h1, fun hn => h1.trans hn⟩

/-- Witness for the amended C4 at an already-normalized existing candidate. -/
theorem resolve_repo_path_exists_normalized_witness :
    resolve_repo_path (mkFS ["repo", "repo/x"]) (fun _ _ => 0) "repo" "x" = "x" :=
  (resolve_repo_path_exists_normalized (mkFS ["repo", "repo/x"]) (fun _ _ => 0)
    "repo" "x" (by decide)).2 (by decide)

/-- C1, evaluated at the failing input: an Overview-level unsure entry whose
refinement verdict is low-confidence is *dropped* by
`process_refinement_batch` — `remaining_unsure` comes back empty, so the
orchestrator's escalation step (`main.py` lines 366-401) never sees the
entry and it is pruned in its first round without ever being escalated to
raw content (first conjunct); a low-confidence `related=true` verdict is
promoted to the sure set without escalation (second conjunct).  This
contradicts the claim and the code's own guidance (`refinement.py`: "use
low confidence to request raw content analysis in the next iteration",
"[LOW_CONF] ... will be escalated or pruned"). -/
theorem refinement_batch_drops_low_confidence_overview :
    process_refinement_batch
      [.fileTask ⟨"src/util.py", false, "may be affected", .file_overview⟩
        (some ⟨"src/util.py", false, .low, "Cannot tell from the overview"⟩)] =
      ([], [], [], [⟨"src/util.py", "not_related", "low", "Cannot tell from the overview"⟩]) ∧
    process_refinement_batch
      [.fileTask ⟨"src/util.py", false, "may be affected", .file_overview⟩
        (some ⟨"src/util.py", true, .low, "Cannot tell from the overview"⟩)] =
      (["src/util.py"], [], [],
       [⟨"src/util.py", "related", "low", "Cannot tell from the overview"⟩]) := by
  refine ⟨by decide, by decide⟩

/-- At the cap round the escalation policy prunes every entry
unconditionally (`main.py` lines 394-396). -/
theorem escalate_entry_at_cap (env : String → Bool) (m : Nat) (e : UnsureEntry) :
    escalate_entry env m m e = none := by
  simp [escalate_entry]

/-- Invariant of the refinement loop: starting at a round counter that is at
most the cap, with an empty queue if already at the cap, the loop exits with
an empty queue and a round counter at most the cap. -/
theorem refinement_loop_invariant (oracle : Nat → List UnsureEntry → RoundOutcome)
    (env : String → Bool) (maxIt : Nat) :
    ∀ (fuel iteration : Nat) (rem : List UnsureEntry) (sure : List String),
      maxIt - iteration ≤ fuel → iteration ≤ maxIt → (iteration = maxIt → rem = []) →
      (refinement_loop oracle env maxIt iteration rem sure).2.1 = [] ∧
      (refinement_loop oracle env maxIt iteration rem sure).2.2 ≤ maxIt := by
  intro fuel
  induction fuel with
  | zero =>
    intro iteration rem sure hf hle hcap
    have hit : iteration = maxIt := by omega
    have hrem : rem = [] := hcap hit
    rw [refinement_loop]
    rw [dif_neg (by simp [hrem])]
    exact ⟨hrem, hle⟩
  | succ n ih =>
    intro iteration rem sure hf hle hcap
    rw [refinement_loop]
    by_cases hcond : rem ≠ [] ∧ iteration < maxIt
    · have hlt : iteration < maxIt := hcond.2
      rw [dif_pos hcond]
      apply ih
      · omega
      · omega
      · intro hit1
        refine List.filterMap_eq_nil_iff.mpr (fun a _ => ?_)
        rw [hit1]
        exact escalate_entry_at_cap env maxIt a
    · rw [dif_neg hcond]
      by_cases hrem : rem = []
      · exact ⟨hrem, hle⟩
      · have hnlt : ¬ iteration < maxIt := fun hlt => hcond ⟨hrem, hlt⟩
        exact absurd (hcap (by omega)) hrem

/-- C2: for every oracle of batch results, every max-depth environment and
every initial unsure set, the refinement loop of `run_analysis` (with its
hard-coded `max_iterations = 3`) executes at most 3 rounds and exits with an
empty `remaining_unsure` list — at the cap round the escalation policy
prunes every remaining entry unconditionally (third conjunct), so the
residual still-unsure list is empty by construction at loop exit. -/
theorem refinement_loop_bounded_and_residual_empty
    (oracle : Nat → List UnsureEntry → RoundOutcome) (env : String → Bool)
    (init : List UnsureEntry) (sure0 : List String) :
    (refinement_loop oracle env 3 0 init sure0).2.2 ≤ 3 ∧
    (refinement_loop oracle env 3 0 init sure0).2.1 = [] ∧
    (∀ e, escalate_entry env 3 3 e = none) := by
  obtain ⟨h1, h2⟩ := refinement_loop_invariant oracle env 3 3 0 init sure0
    (by omega) (by omega) (fun h => absurd h (by omega))
  exact ⟨h2, h1, escalate_entry_at_cap env 3⟩

end ArtifactSync
